import Mathlib

/-!
Verification of the storage-dump analyzers: a shallow embedding of
`tools/analyzers/storage.py`, `indexeddb.py`, `code_graph.py` and
`reporter.py`, with theorems settling the specification's claims.
-/

/-- A dynamically-typed value, as the analyzers receive them from the
already-parsed dump document (the Python runtime's value universe
restricted to the shapes the data model allows). -/
inductive PyValue where
  | none
  | bool (b : Bool)
  | int (n : Int)
  | str (s : String)
  | list (xs : List PyValue)
  | dict (fields : List (String × PyValue))

/-- Python `type(v).__name__`. -/
def pyTypeName : PyValue → String
  | .none => "NoneType"
  | .bool _ => "bool"
  | .int _ => "int"
  | .str _ => "str"
  | .list _ => "list"
  | .dict _ => "dict"

/-- Python `isinstance(v, dict)`. -/
def isInstDict : PyValue → Bool
  | .dict _ => true
  | _ => false

/-- Python `isinstance(v, list)`. -/
def isInstList : PyValue → Bool
  | .list _ => true
  | _ => false

/-- Python `isinstance(v, bool)`. -/
def isInstBool : PyValue → Bool
  | .bool _ => true
  | _ => false

/-- Python `isinstance(v, int)`: `True` also on booleans, because in the
host runtime `bool` is a subclass of `int`. -/
def isInstInt : PyValue → Bool
  | .bool _ => true
  | .int _ => true
  | _ => false

/-- Python `isinstance(v, str)`. -/
def isInstStr : PyValue → Bool
  | .str _ => true
  | _ => false

/-- Python `v is None`. -/
def isNoneV : PyValue → Bool
  | .none => true
  | _ => false

/-- Association-list lookup by string key: Python `d.get(k)` / `d[k]`
membership on a dict rendered as its (unique-keyed) item list. -/
def lookupA {β : Type} (m : List (String × β)) (k : String) : Option β :=
  match m with
  | [] => Option.none
  | (k0, v) :: rest => if k0 = k then Option.some v else lookupA rest k

/-- Python `str(v)` for scalars and `repr(v)` inside containers need a
decimal rendering of integers; `Int`'s `toString` matches Python's. -/
def pyIntStr (n : Int) : String := toString n

mutual
/-- Python `repr(v)`: the rendering used for values nested in containers. -/
def pyRepr : PyValue → String
  | .none => "None"
  | .bool b => if b then "True" else "False"
  | .int n => pyIntStr n
  | .str s => "\x27" ++ s ++ "\x27"
  | .list xs => "[" ++ String.intercalate ", " (pyReprList xs) ++ "]"
  | .dict fs => "\x7b" ++ String.intercalate ", " (pyReprFields fs) ++ "\x7d"

def pyReprList : List PyValue → List String
  | [] => []
  | v :: rest => pyRepr v :: pyReprList rest

def pyReprFields : List (String × PyValue) → List String
  | [] => []
  | (k, v) :: rest => ("\x27" ++ k ++ "\x27: " ++ pyRepr v) :: pyReprFields rest
end

/-- Python `str(v)`: like `repr` except a top-level string renders as
itself, unquoted. -/
def pyStr : PyValue → String
  | .str s => s
  | v => pyRepr v

/-- Increment a bucket of an insertion-ordered histogram, the behaviour
of `defaultdict(int)` / `Counter` under `m[k] += 1`: bump the existing
binding in place, else append a fresh binding at the end. -/
def incrA (m : List (String × Nat)) (k : String) : List (String × Nat) :=
  match m with
  | [] => [(k, 1)]
  | (k0, n) :: rest => if k0 = k then (k0, n + 1) :: rest else (k0, n) :: incrA rest k

/-- Histogram bucket read: `m.get(k, 0)`. -/
def bucketCount (m : List (String × Nat)) (k : String) : Nat :=
  (lookupA m k).getD 0

/-- Sum of a histogram's counts. -/
def sumCounts (m : List (String × Nat)) : Nat :=
  (m.map Prod.snd).sum

/-- Dict assignment `m[k] = v`: replace the existing binding in place
(Python dicts keep the original insertion position), else append. -/
def assignA {β : Type} (m : List (String × β)) (k : String) (v : β) : List (String × β) :=
  match m with
  | [] => [(k, v)]
  | (k0, v0) :: rest => if k0 = k then (k0, v) :: rest else (k0, v0) :: assignA rest k v

/-! ### `storage.py` — StorageAnalyzer -/

/-- A key-value store as handed to `_analyze_storage`: an ordered
mapping from keys to stored values. -/
abbrev KVStore : Type := List (String × PyValue)

/-- The character class `[a-zA-Z0-9_]` of the key-pattern regex
(ASCII-only, as in the source pattern; `re.IGNORECASE` adds nothing to
a class already holding both cases). -/
def isWordChar (c : Char) : Bool :=
  (('a' ≤ c && c ≤ 'z') || ('A' ≤ c && c ≤ 'Z') || ('0' ≤ c && c ≤ '9') || c = '_')

/-- Matching `re.match(r'^([a-zA-Z0-9_]+?)_', key)`: the non-greedy
group captures the shortest non-empty run of word characters that is
followed by an underscore, i.e. the characters before the first
underscore at position ≥ 1 all of which are word characters. `acc`
holds the reversed characters consumed so far. -/
def keyPrefMatch (acc : List Char) : List Char → Option String
  | [] => Option.none
  | c :: rest =>
    if c = '_' ∧ acc ≠ [] then Option.some (String.mk acc.reverse)
    else if isWordChar c then keyPrefMatch (c :: acc) rest
    else Option.none

/-- The bucket `_extract_patterns` files a key under: `prefix_*` when
the prefix regex matches, else the literal key. -/
def bucketOf (key : String) : String :=
  match keyPrefMatch [] key.data with
  | Option.some p => p ++ "_*"
  | Option.none => key

/-- `StorageAnalyzer._extract_patterns`: histogram of buckets over the
keys, in first-occurrence order. -/
def extract_patterns (keys : List String) : List (String × Nat) :=
  keys.foldl (fun m k => incrA m (bucketOf k)) []

/-- The per-entry size list: `[v.get('size', 0) for v in storage.values()
if isinstance(v, dict)]`. A present non-integer size is outside the data
model's invariant (`size` is a non-negative integer); absence defaults
to 0. -/
def sizesOf (storage : KVStore) : List Int :=
  storage.filterMap fun kv =>
    match kv.2 with
    | .dict fields =>
        Option.some (match lookupA fields "size" with
          | Option.some (.int n) => n
          | _ => 0)
    | _ => Option.none

/-- The type bucket `_infer_types` charges one dict-shaped entry to:
entries whose `parsed` is absent or `None` count as `string`; a parsed
list as `JSON_array`; a parsed dict as `JSON_object`; any other parsed
value under its runtime type name. -/
def typeLabelOfEntry (fields : List (String × PyValue)) : String :=
  match lookupA fields "parsed" with
  | Option.some p =>
      if isNoneV p then "string"
      else if isInstList p then "JSON_array"
      else if isInstDict p then "JSON_object"
      else pyTypeName p
  | Option.none => "string"

/-- The bucket a stored value contributes to, if any: non-dict values
are skipped (`continue`) and contribute nothing. -/
def entryLabelOpt : PyValue → Option String
  | .dict fields => Option.some (typeLabelOfEntry fields)
  | _ => Option.none

/-- `StorageAnalyzer._infer_types`: skips non-dict values entirely,
then histograms `typeLabelOfEntry`. -/
def infer_types (storage : KVStore) : List (String × Nat) :=
  storage.foldl
    (fun m kv =>
      match entryLabelOpt kv.2 with
      | Option.some lbl => incrA m lbl
      | Option.none => m) []

/-- One entry of the storage cardinality map: `{type, cardinality}` for
parsed arrays/objects, `{type, unique_values}` (always 1) for parsed
scalars. -/
structure SCardEntry where
  stype : String
  cardinality : Option Nat
  unique_values : Option Nat

/-- The cardinality record for one parsed value: element count for
arrays, key count for objects, `unique_values = 1` for scalars under
their runtime type name. -/
def sCardEntryFor (parsed : PyValue) : SCardEntry :=
  match parsed with
  | .list xs => ⟨"array", Option.some xs.length, Option.none⟩
  | .dict fs => ⟨"object", Option.some fs.length, Option.none⟩
  | p => ⟨pyTypeName p, Option.none, Option.some 1⟩

/-- The cardinality record a stored value yields, if any: only
dict-shaped values with a present `parsed` key (even one holding
`None`) produce one. -/
def sCardOpt : PyValue → Option SCardEntry
  | .dict fields =>
      (match lookupA fields "parsed" with
       | Option.some parsed => Option.some (sCardEntryFor parsed)
       | Option.none => Option.none)
  | _ => Option.none

/-- One iteration of `_analyze_cardinality`'s loop. -/
def sCardStep (result : List (String × SCardEntry)) (kv : String × PyValue) :
    List (String × SCardEntry) :=
  match sCardOpt kv.2 with
  | Option.some e => assignA result kv.1 e
  | Option.none => result

/-- `StorageAnalyzer._analyze_cardinality`: assign a cardinality entry
keyed by the storage key for every qualifying entry. -/
def analyze_cardinality_s (storage : KVStore) : List (String × SCardEntry) :=
  storage.foldl sCardStep []

/-- The result record of `_analyze_storage`. Python's float division is
embedded as exact rational arithmetic. -/
structure StorageStats where
  total_keys : Nat
  total_size_bytes : Int
  avg_value_size : ℚ
  key_patterns : List (String × Nat)
  sizes_min : Int
  sizes_max : Int
  sizes_median : Int
  data_types : List (String × Nat)
  cardinality : List (String × SCardEntry)

/-- Python `min(sizes)` / `max(sizes)` on a non-empty list (guarded by
the caller), with the guard's 0 for the empty case. -/
def listMinD (l : List Int) : Int :=
  match l with
  | [] => 0
  | x :: rest => rest.foldl min x

def listMaxD (l : List Int) : Int :=
  match l with
  | [] => 0
  | x :: rest => rest.foldl max x

/-- Python `sorted(sizes)`: ascending stable sort. -/
def pySorted (l : List Int) : List Int := l.insertionSort (· ≤ ·)

/-- `StorageAnalyzer._analyze_storage`. -/
def analyze_storage (storage : KVStore) : StorageStats :=
  let keys := storage.map Prod.fst
  let sizes := sizesOf storage
  { total_keys := keys.length
    total_size_bytes := sizes.sum
    avg_value_size := if sizes.length = 0 then 0 else (sizes.sum : ℚ) / (sizes.length : ℚ)
    key_patterns := extract_patterns keys
    sizes_min := listMinD sizes
    sizes_max := listMaxD sizes
    sizes_median := if sizes.length = 0 then 0 else (pySorted sizes).getD (sizes.length / 2) 0
    data_types := infer_types storage
    cardinality := analyze_cardinality_s storage }

/-- The number of entries whose stored value is a mapping: the length of
the size list the analyzer actually averages over. -/
def dictCountOf (storage : KVStore) : Nat :=
  storage.countP (fun kv => isInstDict kv.2)

/-! ### `indexeddb.py` — IndexedDBAnalyzer -/

/-- One field of an inferred schema. `ftype` embeds the dict key
`type`; optional members are the keys the source adds conditionally. -/
structure SchemaEntry where
  ftype : String
  note : Option String
  presence : Option String
  max_length : Option Nat
  avg_length : Option ℚ

/-- The type classification of `_infer_schema` (the `classify` utility
of the spec): first-match-wins, `None` first, then booleans strictly
before integers because the host's `bool` is a subclass of `int`, then
strings, lists, dicts, and a runtime-type-name fallback. -/
def inferFieldType (v : PyValue) : String :=
  if isNoneV v then "null"
  else if isInstBool v then "boolean"
  else if isInstInt v then "number"
  else if isInstStr v then "string"
  else if isInstList v then "array"
  else if isInstDict v then "object"
  else pyTypeName v

/-- `[r for r in records if isinstance(r, dict)]`, as item lists. -/
def dictRecordsOf (records : List PyValue) : List (List (String × PyValue)) :=
  records.filterMap fun r =>
    match r with
    | .dict fs => Option.some fs
    | _ => Option.none

/-- Round-half-to-even on a rational: the rounding Python's fixed-point
float formatting applies (floats are embedded as exact rationals). -/
def roundHalfEven (q : ℚ) : Int :=
  let f := ⌊q⌋
  if q - f < 1 / 2 then f
  else if q - f > 1 / 2 then f + 1
  else if f % 2 = 0 then f else f + 1

/-- Python `f"\x7bq:.0f\x7d"`. -/
def formatFloat0 (q : ℚ) : String := toString (roundHalfEven q)

/-- Python string lengths of the values a field takes over the records
that carry it: `[len(str(r.get(key, ''))) for r in dict_records if key in r]`. -/
def fieldStrLengths (dictRecords : List (List (String × PyValue))) (key : String) : List Nat :=
  dictRecords.filterMap fun fs => (lookupA fs key).map (fun v => (pyStr v).length)

/-- `max` of a non-empty `Nat` list (0 on empty; callers guard). -/
def listMaxN (l : List Nat) : Nat := l.foldl max 0

/-- The schema entry `_infer_schema` builds for one field of the first
record: its type tag, `presence` as an integer percentage over the
dict-shaped records only, and for string fields length statistics over
the records carrying the field. -/
def schemaFieldEntry (dictRecords : List (List (String × PyValue)))
    (key : String) (value : PyValue) : SchemaEntry :=
  let ft := inferFieldType value
  let presCount := dictRecords.countP (fun fs => (lookupA fs key).isSome)
  let presence : ℚ :=
    if dictRecords.length = 0 then 0
    else (presCount : ℚ) / (dictRecords.length : ℚ) * 100
  let base : SchemaEntry :=
    { ftype := ft, note := Option.none
      presence := Option.some (formatFloat0 presence ++ "%")
      max_length := Option.none, avg_length := Option.none }
  if ft = "string" then
    let lengths := fieldStrLengths dictRecords key
    if lengths.isEmpty then base
    else { base with
           max_length := Option.some (listMaxN lengths)
           avg_length := Option.some ((lengths.sum : ℚ) / (lengths.length : ℚ)) }
  else base

/-- `IndexedDBAnalyzer._infer_schema`: empty mapping for an empty
store; a `_primitive` sentinel when the first record is not an object;
otherwise one entry per field of the first record. -/
def infer_schema (records : List PyValue) : List (String × SchemaEntry) :=
  match records with
  | [] => []
  | first :: _ =>
    match first with
    | .dict fields =>
        fields.map fun kv => (kv.1, schemaFieldEntry (dictRecordsOf records) kv.1 kv.2)
    | _ =>
        [("_primitive",
          { ftype := pyTypeName first
            note := Option.some "Records are primitive values, not objects"
            presence := Option.none, max_length := Option.none, avg_length := Option.none })]

/-- One entry of the IndexedDB cardinality map. `ratioVal` embeds the
dict key `cardinality_ratio`, Python float division taken exactly. -/
structure IdbCardEntry where
  unique_values : Nat
  ratioVal : ℚ

/-- `len(set(str(v) for v in values))`. -/
def uniqueCount (values : List PyValue) : Nat := ((values.map pyStr).dedup).length

/-- The cardinality entry for one field of the first record: skipped
(`None`) when no dict record carries the field, else distinct string
renderings over the carriers and their ratio to the carrier count. -/
def cardEntryFor (dictRecords : List (List (String × PyValue))) (key : String) :
    Option IdbCardEntry :=
  let values := dictRecords.filterMap (fun fs => lookupA fs key)
  if values.isEmpty then Option.none
  else Option.some
    { unique_values := uniqueCount values
      ratioVal := (uniqueCount values : ℚ) / (values.length : ℚ) }

/-- `IndexedDBAnalyzer._analyze_cardinality`. -/
def analyze_cardinality_idb (records : List PyValue) : List (String × IdbCardEntry) :=
  match records with
  | [] => []
  | first :: _ =>
    match first with
    | .dict fields =>
        let dictRecords := dictRecordsOf records
        if dictRecords.isEmpty then []
        else (fields.map Prod.fst).filterMap fun key =>
          (cardEntryFor dictRecords key).map (fun e => (key, e))
    | _ =>
        [("_primitive",
          { unique_values := uniqueCount records
            ratioVal :=
              if records.length = 0 then 0
              else (uniqueCount records : ℚ) / (records.length : ℚ) })]

/-! ### `code_graph.py` — CodeGraphAnalyzer -/

/-- One cache entry, with the response fields the analyzer reads
(absent fields already defaulted the way `entry.get`/`response.get`
would: empty strings and 0). -/
structure CacheEntry where
  url : String
  contentType : String
  bodySize : Int
  body : String
deriving DecidableEq

structure WebCache where
  entries : List CacheEntry

structure CacheCollection where
  caches : List WebCache

/-- All entries in iteration order: `for cache in ...: for entry in ...`. -/
def entriesOf (cc : CacheCollection) : List CacheEntry :=
  (cc.caches.map WebCache.entries).flatten

/-- Decides whether `needle` is a prefix of `hay`. -/
def hasPref : List Char → List Char → Bool
  | [], _ => true
  | _ :: _, [] => false
  | c :: cs, d :: ds => c = d && hasPref cs ds

/-- Python `needle in hay` on strings (substring containment). -/
def containsSub (needle : List Char) : List Char → Bool
  | [] => hasPref needle []
  | d :: ds => hasPref needle (d :: ds) || containsSub needle ds

/-- Python `str.lower()` on one character (ASCII range, all that
content-type strings use). -/
def pyLowerChar (c : Char) : Char :=
  if 'A' ≤ c ∧ c ≤ 'Z' then Char.ofNat (c.toNat + 32) else c

/-- Python `s.lower()`. -/
def pyLower (s : String) : String := String.mk (s.data.map pyLowerChar)

/-- `CodeGraphAnalyzer._is_javascript`: `'javascript' in contentType.lower()`. -/
def isJavascript (e : CacheEntry) : Bool :=
  containsSub "javascript".data (pyLower e.contentType).data

/-- Python `s.split(sep)` for a one-character separator: splits on
every occurrence, keeping empty segments; the empty string yields a
one-element list holding the empty segment. -/
def splitOnChar (sep : Char) : List Char → List (List Char)
  | [] => [[]]
  | c :: rest =>
    if c = sep then [] :: splitOnChar sep rest
    else
      match splitOnChar sep rest with
      | h :: t => (c :: h) :: t
      | [] => [[c]]

/-- `CodeGraphAnalyzer._get_component_name`: last path segment, query
string stripped, then the part before the first hyphen if any. -/
def componentName (url : String) : String :=
  let filename := (splitOnChar '?' ((splitOnChar '/' url.data).getLastD [])).headD []
  if filename.contains '-' then String.mk ((splitOnChar '-' filename).headD [])
  else String.mk filename

/-- The apostrophe character. -/
def apos : Char := Char.ofNat 39

/-- A single or double quote, the regexes' `['"]` class. -/
def isQuote (c : Char) : Bool := c = apos || c = '"'

/-- Strip `needle` off the front of `hay`, if it is a prefix. -/
def dropPref (needle : List Char) (hay : List Char) : Option (List Char) :=
  match needle, hay with
  | [], rest => Option.some rest
  | _ :: _, [] => Option.none
  | c :: cs, d :: ds => if c = d then dropPref cs ds else Option.none

/-- Parse the regex tail `['"]([^'"]+)['"]`: an opening quote, a
maximal non-empty run of non-quote characters (the greedy `+` can
never backtrack into a quote), and a closing quote of either kind.
Returns the captured literal and the remaining input. -/
def quoteLit (cs : List Char) : Option (String × List Char) :=
  match cs with
  | [] => Option.none
  | c :: rest =>
    if isQuote c then
      let content := rest.takeWhile (fun d => ¬ isQuote d)
      if content.isEmpty then Option.none
      else
        match rest.dropWhile (fun d => ¬ isQuote d) with
        | d :: rest2 => if isQuote d then Option.some (String.mk content, rest2) else Option.none
        | [] => Option.none
    else Option.none

/-- Try the pattern `(?:import|require)\(['"]([^'"]+)['"]\)` anchored
at the current position. -/
def tryCallMatch (cs : List Char) : Option (String × List Char) :=
  let afterHead :=
    match dropPref ("import(".data) cs with
    | Option.some r => Option.some r
    | Option.none => dropPref ("require(".data) cs
  match afterHead with
  | Option.none => Option.none
  | Option.some r =>
    match quoteLit r with
    | Option.none => Option.none
    | Option.some (lit, rest) =>
      match rest with
      | c :: rest2 => if c = ')' then Option.some (lit, rest2) else Option.none
      | [] => Option.none

/-- Python's `\s` class (ASCII range, all that script bodies use). -/
def isPySpace (c : Char) : Bool :=
  c = ' ' || c = '\t' || c = '\n' || c = '\x0d' || c = '\x0b' || c = '\x0c'

/-- Try the pattern `from\s+['"]([^'"]+)['"]` anchored at the current
position. -/
def tryFromMatch (cs : List Char) : Option (String × List Char) :=
  match dropPref ("from".data) cs with
  | Option.none => Option.none
  | Option.some r =>
    if (r.takeWhile isPySpace).isEmpty then Option.none
    else quoteLit (r.dropWhile isPySpace)

/-- `re.finditer` over one pattern: scan left to right, emit each
leftmost match's captured literal, resume after the match. Every match
consumes at least one character, so fuel equal to the input length
never runs out. -/
def scanMatches (tryM : List Char → Option (String × List Char)) :
    Nat → List Char → List String
  | 0, _ => []
  | _ + 1, [] => []
  | fuel + 1, c :: rest =>
    match tryM (c :: rest) with
    | Option.some (lit, remaining) => lit :: scanMatches tryM fuel remaining
    | Option.none => scanMatches tryM fuel rest

/-- `CodeGraphAnalyzer._extract_imports`: the two finditer passes feed
one set; embedded as the deduplicated list of all captured literals. -/
def extract_imports (code : String) : List String :=
  ((scanMatches tryCallMatch code.data.length code.data)
    ++ (scanMatches tryFromMatch code.data.length code.data)).dedup

/-- The record stored in `components` for one script entry. -/
structure Component where
  url : String
  size : Int
  imports : List String
deriving DecidableEq

/-- Entry filter of the analyze loop: JavaScript content type and a
non-empty (truthy) body. -/
def qualifiesJS (e : CacheEntry) : Bool :=
  isJavascript e && ¬ e.body.isEmpty

/-- One iteration of `CodeGraphAnalyzer.analyze`: a qualifying entry
overwrites both maps at its derived component name. -/
def cgStep (st : List (String × Component) × List (String × List String))
    (e : CacheEntry) : List (String × Component) × List (String × List String) :=
  if qualifiesJS e then
    (assignA st.1 (componentName e.url) ⟨e.url, e.bodySize, extract_imports e.body⟩,
     assignA st.2 (componentName e.url) (extract_imports e.body))
  else st

/-- The analyzer's result. -/
structure CodeGraphResult where
  components : List (String × Component)
  graph : List (String × List String)
  total_components : Nat
  total_dependencies : Nat

/-- `CodeGraphAnalyzer.analyze`. -/
def code_graph_analyze (cc : CacheCollection) : CodeGraphResult :=
  let st := (entriesOf cc).foldl cgStep ([], [])
  { components := st.1
    graph := st.2
    total_components := st.1.length
    total_dependencies := (st.2.map (fun kv => kv.2.length)).sum }

/-! ### `reporter.py` — ReportGenerator

The report generator consumes analyzer output; every read is a
`dict.get` with a default (`0`, `\x7b\x7d`, `'unknown'`, ...), except the one
subscript `code['stats']`. The input is embedded with `Option` at each
level a whole sub-mapping can be absent, and the sole fallible
subscript is embedded in `Except`. -/

/-- The slice of a per-store storage summary the generator reads.
`vmin`/`vmax`/`vmedian` embed the `value_sizes_bytes` sub-mapping. -/
structure StoreStatsR where
  total_keys : Nat
  total_size_bytes : Int
  avg_value_size : ℚ
  key_patterns : List (String × Nat)
  vmin : Int
  vmax : Int
  vmedian : Int
  data_types : List (String × Nat)

structure StorageR where
  localStorage : Option StoreStatsR
  sessionStorage : Option StoreStatsR

/-- One schema row as the generator reads it (`type` as `ftypeR`). -/
structure SchemaFieldR where
  ftypeR : Option String
  presence : Option String

/-- One cardinality row (`cardinality_ratio` as `ratioValR`). -/
structure CardFieldR where
  ratioValR : Option ℚ
  unique_values : Option Nat

structure StoreInfoR where
  record_count : Option Nat
  key_path : Option String
  schema : List (String × SchemaFieldR)
  cardinality : List (String × CardFieldR)

structure DbR where
  version : Option Int
  stores : List (String × StoreInfoR)

structure CgStatsR where
  total_components : Nat
  total_dependencies : Nat

structure CodeGraphR where
  stats : Option CgStatsR

/-- The analysis mapping handed to `ReportGenerator.generate`; each of
the four analyzer sections may be absent. The `caches` section is
never read by the generator (opaque here). -/
structure ReportInput where
  storage : Option StorageR
  indexeddb : Option (List (String × DbR))
  caches : Option Unit
  code_graph : Option CodeGraphR

/-- Python `d[k]`: raises `KeyError` on a missing key. -/
def pySubscr {α : Type} (o : Option α) : Except String α :=
  match o with
  | Option.some a => Except.ok a
  | Option.none => Except.error "KeyError"

def exceptIsOk {ε α : Type} : Except ε α → Bool
  | Except.ok _ => true
  | Except.error _ => false

/-- Two-digit zero-padded decimal. -/
def pad2 (n : Nat) : String :=
  if n < 10 then "0" ++ toString n else toString n

def format2fN (n : Nat) : String := toString (n / 100) ++ "." ++ pad2 (n % 100)

/-- Python `f"\x7bq:.2f\x7d"` on exact rationals. -/
def format2f (q : ℚ) : String :=
  let n := roundHalfEven (q * 100)
  if n < 0 then "-" ++ format2fN (-n).toNat else format2fN n.toNat

/-- Python `f"\x7bn:,\x7d"`: decimal digits with thousands separators. -/
def formatComma (n : Nat) : String :=
  let ds := (toString n).data
  let len := ds.length
  String.mk (ds.enum.foldr
    (fun p acc =>
      if p.1 ≠ 0 ∧ (len - p.1) % 3 = 0 then ',' :: p.2 :: acc else p.2 :: acc) [])

/-- The two summary lines of the `### Storage` block; `s` is
`localStorage` / `sessionStorage`, possibly absent. -/
def storageSummaryLine (name : String) (s : Option StoreStatsR) : String :=
  "- **" ++ name ++ "**: " ++ toString ((s.map StoreStatsR.total_keys).getD 0)
    ++ " keys ("
    ++ format2f ((((s.map StoreStatsR.total_size_bytes).getD 0 : Int) : ℚ) / 1024 / 1024)
    ++ " MB)\n"

/-- The per-store block of the `### IndexedDB Stores` section. -/
def storeBlock (storeName : String) (info : StoreInfoR) : String :=
  "**Store**: `" ++ storeName ++ "`\n\n"
    ++ "- Records: " ++ formatComma (info.record_count.getD 0) ++ "\n"
    ++ "- Key Path: `" ++ info.key_path.getD "N/A" ++ "`\n"
    ++ (if info.schema.isEmpty then ""
        else "\n**Schema**:\n\n| Field | Type | Presence |\n|-------|------|----------|\n"
          ++ info.schema.foldl
              (fun acc fld =>
                acc ++ "| `" ++ fld.1 ++ "` | " ++ (fld.2.ftypeR.getD "unknown")
                  ++ " | " ++ (fld.2.presence.getD "?") ++ " |\n") "")
    ++ (if info.cardinality.isEmpty then ""
        else "\n**Cardinality**:\n\n"
          ++ info.cardinality.foldl
              (fun acc fld =>
                acc ++ "- `" ++ fld.1 ++ "`: " ++ toString (fld.2.unique_values.getD 0)
                  ++ " unique values (" ++ formatFloat0 ((fld.2.ratioValR.getD 0) * 100)
                  ++ "%)\n") "")
    ++ "\n"

/-- The per-database block of the `### IndexedDB Stores` section. -/
def dbBlock (dbName : String) (db : DbR) : String :=
  "\n#### Database: " ++ dbName ++ " (v"
    ++ (match db.version with
        | Option.some n => pyIntStr n
        | Option.none => "?") ++ ")\n\n"
    ++ db.stores.foldl (fun acc st => acc ++ storeBlock st.1 st.2) ""

/-- `ReportGenerator.generate`, the report text as a function of the
timestamp and the analysis mapping. The only operation that can raise
is the `code['stats']` subscript, guarded by the truthiness check on
`code.get('stats')`. -/
def reportGenerate (timestamp : String) (analysis : ReportInput) : Except String String :=
  let ls := analysis.storage.bind StorageR.localStorage
  let ss := analysis.storage.bind StorageR.sessionStorage
  let idb := analysis.indexeddb.getD []
  let total_records :=
    (idb.map (fun db => ((db.2.stores.map (fun st => (st.2.record_count).getD 0)).sum))).sum
  let head :=
    "# Perplexity Storage Dump Analysis Report\n\n**Generated**: " ++ timestamp
      ++ "\n\n---\n\n## 📊 Executive Summary\n"
      ++ "\n### Storage\n\n"
      ++ storageSummaryLine "localStorage" ls
      ++ storageSummaryLine "sessionStorage" ss
      ++ "\n### IndexedDB\n\n- **Databases**: " ++ toString idb.length
      ++ "\n- **Total Records**: " ++ formatComma total_records ++ "\n\n"
      ++ "---\n\n## 🔍 Detailed Analysis\n\n### localStorage Details\n\n"
      ++ ((ls.map StoreStatsR.key_patterns).getD []).foldl
          (fun acc p => acc ++ "- `" ++ p.1 ++ "`: " ++ toString p.2 ++ " keys\n") ""
      ++ "\n**Size Distribution**:\n- Min: "
      ++ toString ((ls.map StoreStatsR.vmin).getD 0) ++ " bytes\n- Max: "
      ++ format2f ((((ls.map StoreStatsR.vmax).getD 0 : Int) : ℚ) / 1024) ++ " KB\n- Median: "
      ++ format2f ((((ls.map StoreStatsR.vmedian).getD 0 : Int) : ℚ) / 1024) ++ " KB\n- Average: "
      ++ format2f (((ls.map StoreStatsR.avg_value_size).getD 0) / 1024) ++ " KB\n\n**Data Types**:\n"
      ++ ((ls.map StoreStatsR.data_types).getD []).foldl
          (fun acc p => acc ++ "- " ++ p.1 ++ ": " ++ toString p.2 ++ "\n") ""
      ++ "\n### IndexedDB Stores\n\n"
      ++ idb.foldl (fun acc db => acc ++ dbBlock db.1 db.2) ""
  let codeStats := analysis.code_graph.bind CodeGraphR.stats
  let codeSectionE : Except String String :=
    match codeStats with
    | Option.some _ =>
        match pySubscr codeStats with
        | Except.ok st =>
            Except.ok ("\n### Code Analysis\n\n- Components: " ++ toString st.total_components
              ++ "\n- Dependencies: " ++ toString st.total_dependencies ++ "\n\n")
        | Except.error e => Except.error e
    | Option.none => Except.ok ""
  match codeSectionE with
  | Except.ok codeSection =>
      Except.ok (head ++ codeSection
        ++ "\n---\n\n## 📋 Metadata\n\n- Report Generated: " ++ timestamp
        ++ "\n- Analysis Tool: Perplexity Storage Dump Analyzer v1.0\n\n")
  | Except.error e => Except.error e

/-- A storage summary whose every statistic is zero or empty. -/
def zeroStoreStats : StoreStatsR := ⟨0, 0, 0, [], 0, 0, 0, []⟩

/-! ## Helper lemmas -/

theorem sumCounts_incrA (m : List (String × Nat)) (k : String) :
    sumCounts (incrA m k) = sumCounts m + 1 := by
  induction m with
  | nil => simp [incrA, sumCounts]
  | cons hd tl ih =>
    obtain ⟨k0, n⟩ := hd
    by_cases h : k0 = k <;> simp [incrA, h, sumCounts] at * <;> omega

theorem bucketCount_incrA (m : List (String × Nat)) (k b : String) :
    bucketCount (incrA m k) b = bucketCount m b + (if k = b then 1 else 0) := by
  induction m with
  | nil => by_cases h : k = b <;> simp [incrA, bucketCount, lookupA, h]
  | cons hd tl ih =>
    obtain ⟨k0, n⟩ := hd
    by_cases h : k0 = k
    · subst h
      by_cases hb : k0 = b <;> simp [incrA, bucketCount, lookupA, hb]
    · by_cases hb : k0 = b
      · subst hb
        have hk : ¬ (k = k0) := fun he => h he.symm
        simp [incrA, h, bucketCount, lookupA, hk]
      · simpa [incrA, h, bucketCount, lookupA, hb] using ih

theorem sumCounts_hist {α : Type} (f : α → String) (xs : List α)
    (m : List (String × Nat)) :
    sumCounts (xs.foldl (fun m x => incrA m (f x)) m) = sumCounts m + xs.length := by
  induction xs generalizing m with
  | nil => simp
  | cons x rest ih =>
    simp only [List.foldl_cons, ih, sumCounts_incrA, List.length_cons]
    omega

theorem bucketCount_hist {α : Type} (f : α → String) (xs : List α)
    (m : List (String × Nat)) (b : String) :
    bucketCount (xs.foldl (fun m x => incrA m (f x)) m) b
      = bucketCount m b + xs.countP (fun x => f x = b) := by
  induction xs generalizing m with
  | nil => simp
  | cons x rest ih =>
    simp only [List.foldl_cons, ih, bucketCount_incrA, List.countP_cons]
    by_cases h : f x = b <;> simp [h] <;> omega

theorem lookupA_assignA_self {β : Type} (m : List (String × β)) (k : String) (v : β) :
    lookupA (assignA m k v) k = Option.some v := by
  induction m with
  | nil => simp [assignA, lookupA]
  | cons hd tl ih =>
    obtain ⟨k0, v0⟩ := hd
    by_cases h : k0 = k <;> simp [assignA, lookupA, h, ih]

theorem lookupA_assignA_ne {β : Type} (m : List (String × β)) (k : String) (v : β)
    (k' : String) (h : k ≠ k') :
    lookupA (assignA m k v) k' = lookupA m k' := by
  induction m with
  | nil => simp [assignA, lookupA, h]
  | cons hd tl ih =>
    obtain ⟨k0, v0⟩ := hd
    by_cases h0 : k0 = k
    · subst h0
      simp [assignA, lookupA, h]
    · have hne : ¬ (k' = k) := fun he => h he.symm
      by_cases h1 : k0 = k' <;> simp [assignA, lookupA, h0, h1, hne, ih]

theorem lookupA_map_keyed {β γ : Type} (fields : List (String × β))
    (g : String → β → γ) (f : String) :
    lookupA (fields.map (fun kv => (kv.1, g kv.1 kv.2))) f
      = (lookupA fields f).map (g f) := by
  induction fields with
  | nil => rfl
  | cons hd tl ih =>
    obtain ⟨k, v⟩ := hd
    by_cases h : k = f
    · subst h
      simp [lookupA]
    · simp [lookupA, h, ih]

theorem lookupA_keyed_filterMap {β : Type} (keys : List String)
    (H : String → Option β) (f : String) :
    lookupA (keys.filterMap (fun k => (H k).map (fun e => (k, e)))) f
      = if f ∈ keys then H f else Option.none := by
  induction keys with
  | nil => simp [lookupA]
  | cons k tl ih =>
    by_cases hk : k = f
    · subst hk
      cases h : H k <;> simp [lookupA, h, ih]
    · have hk' : ¬ (f = k) := fun he => hk he.symm
      cases h : H k <;> simp [lookupA, h, hk, hk', ih]

theorem sizesOf_length (storage : KVStore) :
    (sizesOf storage).length = dictCountOf storage := by
  induction storage with
  | nil => rfl
  | cons hd tl ih =>
    obtain ⟨k, v⟩ := hd
    cases v <;> simp [sizesOf, dictCountOf, isInstDict, List.countP_cons] at * <;> omega

/-! ## The claims -/

/-- C1, counterexample: in the store
`\x7b"a": \x7b"size": 10\x7d, "b": "x"\x7d` — two keys, one of which holds a
non-mapping value — `total_keys` is 2 and `total_size_bytes` is 10, yet
`avg_value_size` is 10, not `total_size_bytes / total_keys = 5`, and
`avg_value_size * total_keys = 20` is not `total_size_bytes` even up to
rounding: the implementation divides by the number of mapping-valued
entries, not by `total_keys`. -/
theorem C1_counterexample :
    (analyze_storage [("a", PyValue.dict [("size", PyValue.int 10)]), ("b", PyValue.str "x")]).total_keys = 2
    ∧ (analyze_storage [("a", PyValue.dict [("size", PyValue.int 10)]), ("b", PyValue.str "x")]).total_size_bytes = 10
    ∧ (analyze_storage [("a", PyValue.dict [("size", PyValue.int 10)]), ("b", PyValue.str "x")]).avg_value_size = 10
    ∧ (analyze_storage [("a", PyValue.dict [("size", PyValue.int 10)]), ("b", PyValue.str "x")]).avg_value_size
        ≠ ((analyze_storage [("a", PyValue.dict [("size", PyValue.int 10)]), ("b", PyValue.str "x")]).total_size_bytes : ℚ)
          / ((analyze_storage [("a", PyValue.dict [("size", PyValue.int 10)]), ("b", PyValue.str "x")]).total_keys : ℚ)
    ∧ (analyze_storage [("a", PyValue.dict [("size", PyValue.int 10)]), ("b", PyValue.str "x")]).avg_value_size
        * ((analyze_storage [("a", PyValue.dict [("size", PyValue.int 10)]), ("b", PyValue.str "x")]).total_keys : ℚ)
        ≠ ((analyze_storage [("a", PyValue.dict [("size", PyValue.int 10)]), ("b", PyValue.str "x")]).total_size_bytes : ℚ) := by
  have hs : sizesOf [("a", PyValue.dict [("size", PyValue.int 10)]), ("b", PyValue.str "x")] = [10] := rfl
  refine ⟨rfl, rfl, ?_, ?_, ?_⟩ <;> simp [analyze_storage, hs] <;> norm_num

/-- C1, amended: for every key-value store, `avg_value_size` equals
`total_size_bytes` divided by the number of entries whose stored value
is a mapping (which is `total_keys` only when every value is a
mapping), and is exactly 0 when that count is 0 — in particular on the
empty store; consequently `avg_value_size` times the mapping-entry
count equals `total_size_bytes` exactly. -/
theorem C1_avg_over_mapping_entries (storage : KVStore) :
    ((analyze_storage storage).avg_value_size
        = if dictCountOf storage = 0 then 0
          else ((analyze_storage storage).total_size_bytes : ℚ) / (dictCountOf storage : ℚ))
    ∧ (analyze_storage storage).avg_value_size * (dictCountOf storage : ℚ)
        = ((analyze_storage storage).total_size_bytes : ℚ)
    ∧ (analyze_storage ([] : KVStore)).avg_value_size = 0 := by
  have hlen := sizesOf_length storage
  by_cases h0 : dictCountOf storage = 0
  · have hnil : sizesOf storage = [] := List.length_eq_zero.mp (hlen.trans h0)
    refine ⟨?_, ?_, rfl⟩ <;> simp [analyze_storage, hnil, h0]
  · have hne : (sizesOf storage).length ≠ 0 := by omega
    refine ⟨?_, ?_, rfl⟩
    · simp [analyze_storage, hne, h0, hlen]
    · simp [analyze_storage, hne, ← hlen]

/-- C2: key-pattern extraction partitions the keys — for every key
list, every bucket's count is exactly the number of keys filed under
that bucket (prefix bucket `p_*` on a regex match, the literal key
otherwise), the counts sum to `total_keys`, and the store with keys
`user_1`, `user_2`, `theme` yields `\x7b"user_*": 2, "theme": 1\x7d`. -/
theorem C2_key_patterns_partition :
    (∀ keys : List String,
        sumCounts (extract_patterns keys) = keys.length
        ∧ ∀ b : String,
            bucketCount (extract_patterns keys) b = keys.countP (fun k => bucketOf k = b))
    ∧ extract_patterns ["user_1", "user_2", "theme"] = [("user_*", 2), ("theme", 1)] := by
  refine ⟨fun keys => ⟨?_, fun b => ?_⟩, by decide⟩
  · simpa [extract_patterns, sumCounts] using sumCounts_hist bucketOf keys []
  · simpa [extract_patterns, bucketCount, lookupA] using bucketCount_hist bucketOf keys [] b

/-- C3: the reported median is the element at index `n/2` (integer
division, the lower element for even `n`) of any ascending-sorted
permutation of the size sequence, and the empty store reports zero for
every statistic. -/
theorem C3_median_lower_and_empty_zero :
    (∀ (storage : KVStore) (l : List Int),
        l.Perm (sizesOf storage) → l.Sorted (· ≤ ·) →
        (analyze_storage storage).sizes_median = l.getD (l.length / 2) 0)
    ∧ analyze_storage [] = ⟨0, 0, 0, [], 0, 0, 0, [], []⟩ := by
  constructor
  · intro storage l hperm hsort
    have hps : (pySorted (sizesOf storage)).Perm (sizesOf storage) :=
      List.perm_insertionSort _ _
    have hss : (pySorted (sizesOf storage)).Sorted (· ≤ ·) :=
      List.sorted_insertionSort _ _
    have hl : l = pySorted (sizesOf storage) :=
      List.eq_of_perm_of_sorted (hperm.trans hps.symm) hsort hss
    have hlen : l.length = (sizesOf storage).length := hperm.length_eq
    by_cases h0 : (sizesOf storage).length = 0
    · have hemp : sizesOf storage = [] := List.length_eq_zero.mp h0
      subst hl
      simp [analyze_storage, hemp, pySorted]
    · have hlen2 : (pySorted (sizesOf storage)).length = (sizesOf storage).length :=
        hps.length_eq
      simp [analyze_storage, h0, hl, hlen, hlen2]
  · rfl

/-- C3 witness: on the store with mapping values of sizes 5 and 3 the
sorted sizes are `[3, 5]`, `n/2 = 1`, and the reported median is 5. -/
theorem C3_witness :
    (analyze_storage [("k", PyValue.dict [("size", PyValue.int 5)]),
                      ("m", PyValue.dict [("size", PyValue.int 3)])]).sizes_median = 5 := by
  have h := C3_median_lower_and_empty_zero.1
    [("k", PyValue.dict [("size", PyValue.int 5)]), ("m", PyValue.dict [("size", PyValue.int 3)])]
    [3, 5] (by decide) (by decide)
  simpa using h

theorem lookupA_mem {β : Type} (m : List (String × β)) (k : String) (v : β)
    (h : lookupA m k = Option.some v) : (k, v) ∈ m := by
  induction m with
  | nil => simp [lookupA] at h
  | cons hd tl ih =>
    obtain ⟨k0, v0⟩ := hd
    by_cases hk : k0 = k
    · subst hk
      simp [lookupA] at h
      simp [h]
    · simp [lookupA, hk] at h
      simp [ih h]

theorem infer_types_eq (storage : KVStore) (m : List (String × Nat)) :
    storage.foldl
      (fun m kv =>
        match entryLabelOpt kv.2 with
        | Option.some lbl => incrA m lbl
        | Option.none => m) m
      = (storage.filterMap (fun kv => entryLabelOpt kv.2)).foldl (fun m l => incrA m l) m := by
  induction storage generalizing m with
  | nil => rfl
  | cons hd tl ih =>
    cases h : entryLabelOpt hd.2 <;> simp [List.filterMap_cons, h, ih]

theorem sCard_fold_notmem (rest : KVStore) (m : List (String × SCardEntry)) (k : String)
    (h : k ∉ rest.map Prod.fst) :
    lookupA (rest.foldl sCardStep m) k = lookupA m k := by
  induction rest generalizing m with
  | nil => rfl
  | cons hd tl ih =>
    obtain ⟨k0, v0⟩ := hd
    have hk : k0 ≠ k := by
      intro he
      exact h (by simp [he])
    have htl : k ∉ tl.map Prod.fst := by
      intro hm
      exact h (by simp [hm])
    cases h0 : sCardOpt v0 <;>
      simp [sCardStep, h0, ih _ htl, lookupA_assignA_ne _ _ _ _ hk]

theorem sCard_fold_mem (storage : KVStore) (k : String) (v : PyValue) (e : SCardEntry) :
    ∀ m : List (String × SCardEntry),
      (storage.map Prod.fst).Nodup →
      lookupA storage k = Option.some v →
      sCardOpt v = Option.some e →
      lookupA (storage.foldl sCardStep m) k = Option.some e := by
  induction storage with
  | nil => intro m _ hk; simp [lookupA] at hk
  | cons hd tl ih =>
    intro m hnd hk he
    obtain ⟨k0, v0⟩ := hd
    by_cases h0 : k0 = k
    · subst h0
      simp [lookupA] at hk
      subst hk
      rw [List.map_cons] at hnd
      have hnotin : k0 ∉ tl.map Prod.fst := (List.nodup_cons.mp hnd).1
      simp only [List.foldl_cons]
      rw [sCard_fold_notmem tl _ k0 hnotin]
      simp [sCardStep, he, lookupA_assignA_self]
    · simp [lookupA, h0] at hk
      rw [List.map_cons] at hnd
      have hnd' : (tl.map Prod.fst).Nodup := (List.nodup_cons.mp hnd).2
      simp only [List.foldl_cons]
      exact ih _ hnd' hk he

/-- C10: a dict-shaped store entry whose `parsed` key is present but
holds `None` is charged to the `string` bucket of `data_types` (the
check there is for a non-`None` parsed value), yet the cardinality map
still records it — the presence check there is key membership — under
the null value's runtime type name `NoneType` with `unique_values` 1,
classifying the same entry inconsistently. -/
theorem C10_null_parsed_inconsistency (storage : KVStore) (k : String)
    (fields : List (String × PyValue))
    (hnodup : (storage.map Prod.fst).Nodup)
    (hk : lookupA storage k = Option.some (PyValue.dict fields))
    (hp : lookupA fields "parsed" = Option.some PyValue.none) :
    typeLabelOfEntry fields = "string"
    ∧ 1 ≤ bucketCount (infer_types storage) "string"
    ∧ lookupA (analyze_cardinality_s storage) k
        = Option.some ⟨"NoneType", Option.none, Option.some 1⟩ := by
  have hlbl : typeLabelOfEntry fields = "string" := by
    simp [typeLabelOfEntry, hp, isNoneV]
  refine ⟨hlbl, ?_, ?_⟩
  · have hmem : (k, PyValue.dict fields) ∈ storage := lookupA_mem _ _ _ hk
    have hsmem : "string" ∈ storage.filterMap (fun kv => entryLabelOpt kv.2) := by
      refine List.mem_filterMap.mpr ⟨(k, PyValue.dict fields), hmem, ?_⟩
      simp [entryLabelOpt, hlbl]
    have hpos : 0 < (storage.filterMap (fun kv => entryLabelOpt kv.2)).countP
        (fun l => l = "string") := by
      refine List.countP_pos_iff.mpr ⟨"string", hsmem, by simp⟩
    have hbc : bucketCount (infer_types storage) "string"
        = (storage.filterMap (fun kv => entryLabelOpt kv.2)).countP (fun l => l = "string") := by
      have h1 := infer_types_eq storage []
      have h2 := bucketCount_hist (fun l : String => l)
        (storage.filterMap (fun kv => entryLabelOpt kv.2)) [] "string"
      simp only [infer_types, h1]
      simpa [bucketCount, lookupA] using h2
    omega
  · have he : sCardOpt (PyValue.dict fields)
        = Option.some ⟨"NoneType", Option.none, Option.some 1⟩ := by
      simp [sCardOpt, hp, sCardEntryFor, pyTypeName]
    exact sCard_fold_mem storage k _ _ [] hnodup hk he

/-- C10 witness: the one-entry store `\x7b"flag": \x7b"parsed": None\x7d\x7d`. -/
theorem C10_witness :
    typeLabelOfEntry [("parsed", PyValue.none)] = "string"
    ∧ 1 ≤ bucketCount (infer_types [("flag", PyValue.dict [("parsed", PyValue.none)])]) "string"
    ∧ lookupA (analyze_cardinality_s [("flag", PyValue.dict [("parsed", PyValue.none)])]) "flag"
        = Option.some ⟨"NoneType", Option.none, Option.some 1⟩ :=
  C10_null_parsed_inconsistency [("flag", PyValue.dict [("parsed", PyValue.none)])]
    "flag" [("parsed", PyValue.none)] (by decide) rfl rfl

theorem schemaFieldEntry_ftype (DR : List (List (String × PyValue)))
    (key : String) (v : PyValue) :
    (schemaFieldEntry DR key v).ftype = inferFieldType v := by
  simp only [schemaFieldEntry]
  split_ifs <;> rfl

theorem schemaFieldEntry_presence (DR : List (List (String × PyValue)))
    (key : String) (v : PyValue) :
    (schemaFieldEntry DR key v).presence
      = Option.some (formatFloat0
          (if DR.length = 0 then 0
           else (DR.countP (fun fs => (lookupA fs key).isSome) : ℚ) / (DR.length : ℚ) * 100)
          ++ "%") := by
  simp only [schemaFieldEntry]
  split_ifs <;> rfl

theorem infer_schema_lookup (fields : List (String × PyValue)) (rest : List PyValue)
    (f : String) (v : PyValue) (hf : lookupA fields f = Option.some v) :
    lookupA (infer_schema (PyValue.dict fields :: rest)) f
      = Option.some (schemaFieldEntry (dictRecordsOf (PyValue.dict fields :: rest)) f v) := by
  have h := lookupA_map_keyed fields
    (fun k w => schemaFieldEntry (dictRecordsOf (PyValue.dict fields :: rest)) k w) f
  simp only [infer_schema]
  rw [h, hf]
  rfl

/-- C4: schema inference classifies a boolean field of the first record
as `boolean`, never as `number`, because the boolean check runs
strictly before the integer check — even though the host's
`isinstance(·, int)` is also true on booleans. -/
theorem C4_boolean_before_number (fields : List (String × PyValue)) (rest : List PyValue)
    (f : String) (b : Bool)
    (hf : lookupA fields f = Option.some (PyValue.bool b)) :
    (lookupA (infer_schema (PyValue.dict fields :: rest)) f).map SchemaEntry.ftype
        = Option.some "boolean"
    ∧ (lookupA (infer_schema (PyValue.dict fields :: rest)) f).map SchemaEntry.ftype
        ≠ Option.some "number"
    ∧ isInstInt (PyValue.bool b) = true := by
  have h := infer_schema_lookup fields rest f (PyValue.bool b) hf
  rw [h]
  have hft : (schemaFieldEntry (dictRecordsOf (PyValue.dict fields :: rest)) f
      (PyValue.bool b)).ftype = "boolean" := by
    rw [schemaFieldEntry_ftype]
    rfl
  refine ⟨by simp [hft], by simp [hft], rfl⟩

/-- C4 witness: a one-record store whose field `ok` holds `True`. -/
theorem C4_witness :
    (lookupA (infer_schema [PyValue.dict [("ok", PyValue.bool true)]]) "ok").map SchemaEntry.ftype
        = Option.some "boolean"
    ∧ (lookupA (infer_schema [PyValue.dict [("ok", PyValue.bool true)]]) "ok").map SchemaEntry.ftype
        ≠ Option.some "number"
    ∧ isInstInt (PyValue.bool true) = true :=
  C4_boolean_before_number [("ok", PyValue.bool true)] [] "ok" true rfl

/-- C5: for a store whose first record is an object, every field `f` of
that record gets a `presence` string that is the integer-percentage
rendering of the share of dict-shaped records carrying `f` (primitive
records excluded from the denominator), and when every dict-shaped
record carries `f` the rendered value is exactly `100%`. -/
theorem C5_presence_percentage (fields : List (String × PyValue)) (rest : List PyValue)
    (f : String) (v : PyValue) (hf : lookupA fields f = Option.some v) :
    lookupA (infer_schema (PyValue.dict fields :: rest)) f
        = Option.some (schemaFieldEntry (dictRecordsOf (PyValue.dict fields :: rest)) f v)
    ∧ (schemaFieldEntry (dictRecordsOf (PyValue.dict fields :: rest)) f v).presence
        = Option.some (formatFloat0
            (((dictRecordsOf (PyValue.dict fields :: rest)).countP
                (fun fs => (lookupA fs f).isSome) : ℚ)
              / ((dictRecordsOf (PyValue.dict fields :: rest)).length : ℚ) * 100) ++ "%")
    ∧ ((∀ fs ∈ dictRecordsOf (PyValue.dict fields :: rest), (lookupA fs f).isSome) →
        (schemaFieldEntry (dictRecordsOf (PyValue.dict fields :: rest)) f v).presence
          = Option.some "100%") := by
  have hDR : dictRecordsOf (PyValue.dict fields :: rest) = fields :: dictRecordsOf rest := rfl
  have hlen : (dictRecordsOf (PyValue.dict fields :: rest)).length ≠ 0 := by
    rw [hDR]
    simp
  refine ⟨infer_schema_lookup fields rest f v hf, ?_, ?_⟩
  · rw [schemaFieldEntry_presence]
    simp [hlen]
  · intro hall
    have hcnt : (dictRecordsOf (PyValue.dict fields :: rest)).countP
        (fun fs => (lookupA fs f).isSome)
        = (dictRecordsOf (PyValue.dict fields :: rest)).length := by
      rw [List.countP_eq_length]
      intro fs hfs
      simpa using hall fs hfs
    rw [schemaFieldEntry_presence]
    simp only [hlen, if_neg hlen, hcnt]
    have hq : ((dictRecordsOf (PyValue.dict fields :: rest)).length : ℚ)
        / ((dictRecordsOf (PyValue.dict fields :: rest)).length : ℚ) * 100 = 100 := by
      rw [div_self (by exact_mod_cast hlen)]
      norm_num
    rw [hq]
    have h100 : roundHalfEven (100 : ℚ) = 100 := by norm_num [roundHalfEven]
    simp only [formatFloat0, if_false, h100]
    rfl

/-- C5 witness: two object records both carrying `f` — `presence` is
`100%`. -/
theorem C5_witness :
    (schemaFieldEntry (dictRecordsOf
        [PyValue.dict [("f", PyValue.int 1)], PyValue.dict [("f", PyValue.int 2)]])
      "f" (PyValue.int 1)).presence = Option.some "100%" :=
  (C5_presence_percentage [("f", PyValue.int 1)] [PyValue.dict [("f", PyValue.int 2)]]
    "f" (PyValue.int 1) rfl).2.2 (by decide)

theorem uniqueCount_pos (values : List PyValue) (h : values ≠ []) :
    1 ≤ uniqueCount values := by
  obtain ⟨w, rest, rfl⟩ := List.exists_cons_of_ne_nil h
  have hmem : pyStr w ∈ ((w :: rest).map pyStr).dedup := by
    rw [List.mem_dedup]
    simp
  have : ((w :: rest).map pyStr).dedup ≠ [] := List.ne_nil_of_mem hmem
  have := List.length_pos.mpr this
  simpa [uniqueCount] using this

theorem uniqueCount_le (values : List PyValue) :
    uniqueCount values ≤ values.length := by
  have h1 : ((values.map pyStr).dedup).length ≤ (values.map pyStr).length :=
    (List.dedup_sublist _).length_le
  simpa [uniqueCount] using h1

/-- C6: for a store whose first record is an object, a field of the
first record carried by no dict-shaped record is skipped outright,
while a field carried by `k > 0` dict-shaped records is reported with
`cardinality_ratio` equal to the number of distinct string renderings
of its carried values divided by `k` — a value always inside
`[1/k, 1]`. -/
theorem C6_cardinality_ratio_bounds (fields : List (String × PyValue)) (rest : List PyValue)
    (f : String) (v : PyValue) (hf : lookupA fields f = Option.some v) :
    ((dictRecordsOf (PyValue.dict fields :: rest)).filterMap (fun fs => lookupA fs f)
        = ([] : List PyValue) →
      lookupA (analyze_cardinality_idb (PyValue.dict fields :: rest)) f = Option.none)
    ∧ (∀ values : List PyValue,
        (dictRecordsOf (PyValue.dict fields :: rest)).filterMap (fun fs => lookupA fs f)
          = values →
        values ≠ [] →
        lookupA (analyze_cardinality_idb (PyValue.dict fields :: rest)) f
            = Option.some ⟨uniqueCount values, (uniqueCount values : ℚ) / (values.length : ℚ)⟩
          ∧ 1 ≤ uniqueCount values
          ∧ uniqueCount values ≤ values.length
          ∧ 1 / (values.length : ℚ) ≤ (uniqueCount values : ℚ) / (values.length : ℚ)
          ∧ (uniqueCount values : ℚ) / (values.length : ℚ) ≤ 1) := by
  have hDRne : ¬ (dictRecordsOf (PyValue.dict fields :: rest)).isEmpty := by
    simp [dictRecordsOf]
  have hmemk : f ∈ fields.map Prod.fst :=
    List.mem_map.mpr ⟨(f, v), lookupA_mem fields f v hf, rfl⟩
  have hlook : lookupA (analyze_cardinality_idb (PyValue.dict fields :: rest)) f
      = cardEntryFor (dictRecordsOf (PyValue.dict fields :: rest)) f := by
    simp only [analyze_cardinality_idb]
    rw [if_neg hDRne, lookupA_keyed_filterMap, if_pos hmemk]
  constructor
  · intro hnil
    rw [hlook]
    simp [cardEntryFor, hnil]
  · intro values hv hne
    have hk0 : 0 < values.length := List.length_pos.mpr hne
    have h1 : 1 ≤ uniqueCount values := uniqueCount_pos values hne
    have h2 : uniqueCount values ≤ values.length := uniqueCount_le values
    have hkq : (0 : ℚ) < (values.length : ℚ) := by exact_mod_cast hk0
    refine ⟨?_, h1, h2, ?_, ?_⟩
    · rw [hlook]
      simp [cardEntryFor, hv, hne]
    · gcongr
      exact_mod_cast h1
    · rw [div_le_one hkq]
      exact_mod_cast h2

/-- C6 witness: two object records, both carrying `x` with the same
value — `k = 2`, one distinct rendering, ratio `1/2 ∈ [1/2, 1]`. -/
theorem C6_witness :
    lookupA (analyze_cardinality_idb
        [PyValue.dict [("x", PyValue.int 1)], PyValue.dict [("x", PyValue.int 1)]]) "x"
      = Option.some ⟨1, (1 : ℚ) / 2⟩ := by
  have h := (C6_cardinality_ratio_bounds [("x", PyValue.int 1)]
    [PyValue.dict [("x", PyValue.int 1)]] "x" (PyValue.int 1) rfl).2
    [PyValue.int 1, PyValue.int 1] rfl (List.cons_ne_nil _ _)
  have hu : uniqueCount [PyValue.int 1, PyValue.int 1] = 1 := by decide
  have hl := h.1
  rw [hu] at hl
  norm_num at hl ⊢
  exact hl

/-- C8: import extraction is a set — the result has no duplicates, its
membership is exactly "some pass of either pattern captured this
literal" (so duplicate matches collapse and match order is
immaterial), and scanning `import("a"); import("a"); from 'b'` yields
exactly the two imports `a` and `b`. -/
theorem C8_imports_form_a_set :
    (∀ code : String,
        (extract_imports code).Nodup
        ∧ ∀ s : String,
            s ∈ extract_imports code ↔
              (s ∈ scanMatches tryCallMatch code.data.length code.data
                ∨ s ∈ scanMatches tryFromMatch code.data.length code.data))
    ∧ extract_imports "import(\"a\"); import(\"a\"); from \x27b\x27" = ["a", "b"]
    ∧ (extract_imports "import(\"a\"); import(\"a\"); from \x27b\x27").length = 2 := by
  refine ⟨fun code => ⟨List.nodup_dedup _, fun s => ?_⟩, by decide, by decide⟩
  rw [extract_imports, List.mem_dedup, List.mem_append]

theorem cg_fold_skip (id : String) (es : List CacheEntry) :
    ∀ st : List (String × Component) × List (String × List String),
      (∀ e ∈ es, ¬ (qualifiesJS e = true ∧ componentName e.url = id)) →
      lookupA (es.foldl cgStep st).1 id = lookupA st.1 id
      ∧ lookupA (es.foldl cgStep st).2 id = lookupA st.2 id := by
  induction es with
  | nil => intro st _; exact ⟨rfl, rfl⟩
  | cons a tl ih =>
    intro st h
    have ha := h a (by simp)
    have htl : ∀ e ∈ tl, ¬ (qualifiesJS e = true ∧ componentName e.url = id) :=
      fun e he => h e (by simp [he])
    simp only [List.foldl_cons]
    by_cases hq : qualifiesJS a = true
    · have hne : componentName a.url ≠ id := fun he => ha ⟨hq, he⟩
      have hstep1 : lookupA (cgStep st a).1 id = lookupA st.1 id := by
        simp [cgStep, hq, lookupA_assignA_ne _ _ _ _ hne]
      have hstep2 : lookupA (cgStep st a).2 id = lookupA st.2 id := by
        simp [cgStep, hq, lookupA_assignA_ne _ _ _ _ hne]
      obtain ⟨i1, i2⟩ := ih (cgStep st a) htl
      exact ⟨i1.trans hstep1, i2.trans hstep2⟩
    · have hstep : cgStep st a = st := by simp [cgStep, hq]
      rw [hstep]
      exact ih st htl

theorem cg_fold_last (id : String) (e : CacheEntry) (es : List CacheEntry) :
    ∀ st : List (String × Component) × List (String × List String),
      (es.filter (fun x => qualifiesJS x && decide (componentName x.url = id))).getLast?
          = Option.some e →
      lookupA (es.foldl cgStep st).1 id
          = Option.some ⟨e.url, e.bodySize, extract_imports e.body⟩
      ∧ lookupA (es.foldl cgStep st).2 id = Option.some (extract_imports e.body) := by
  induction es with
  | nil => intro st h; simp at h
  | cons a tl ih =>
    intro st h
    by_cases hpa : (qualifiesJS a && decide (componentName a.url = id)) = true
    · simp only [List.filter_cons, hpa, if_true] at h
      by_cases hft : tl.filter (fun x => qualifiesJS x && decide (componentName x.url = id)) = []
      · rw [hft] at h
        have hae : a = e := by simpa using h
        subst hae
        have hpa2 : qualifiesJS a = true ∧ componentName a.url = id := by
          simpa using hpa
        have hq : qualifiesJS a = true := hpa2.1
        have hid : componentName a.url = id := hpa2.2
        have htl : ∀ x ∈ tl, ¬ (qualifiesJS x = true ∧ componentName x.url = id) := by
          intro x hx hc
          have := List.filter_eq_nil_iff.mp hft x hx
          simp [hc.1, hc.2] at this
        simp only [List.foldl_cons]
        obtain ⟨s1, s2⟩ := cg_fold_skip id tl (cgStep st a) htl
        rw [s1, s2]
        constructor
        · simp [cgStep, hq, hid, lookupA_assignA_self]
        · simp [cgStep, hq, hid, lookupA_assignA_self]
      · obtain ⟨b, l', hbl⟩ := List.exists_cons_of_ne_nil hft
        rw [hbl] at h
        rw [List.getLast?_cons_cons] at h
        simp only [List.foldl_cons]
        exact ih (cgStep st a) (by rw [hbl]; exact h)
    · have hpa' : (qualifiesJS a && decide (componentName a.url = id)) = false := by
        simpa using hpa
      simp only [List.filter_cons, hpa', Bool.false_eq_true, if_false] at h
      simp only [List.foldl_cons]
      exact ih (cgStep st a) h

/-- C7: when several qualifying script entries derive the same
component identifier, the analyzer's final `components[id]` and
`graph[id]` are exactly the record and import set of the last such
entry in iteration order — last write wins in both maps. -/
theorem C7_last_write_wins (cc : CacheCollection) (id : String) (e : CacheEntry)
    (hlast : ((entriesOf cc).filter
        (fun x => qualifiesJS x && decide (componentName x.url = id))).getLast?
      = Option.some e) :
    lookupA (code_graph_analyze cc).components id
        = Option.some ⟨e.url, e.bodySize, extract_imports e.body⟩
    ∧ lookupA (code_graph_analyze cc).graph id = Option.some (extract_imports e.body) := by
  have h := cg_fold_last id e (entriesOf cc) ([], []) hlast
  simpa [code_graph_analyze] using h

/-- C7 witness: two JavaScript entries `app-abc123.js` and
`app-def456.js` both derive the identifier `app`; the analyzer reports
only the second entry's url, size and imports under `app`, in both
maps. -/
theorem C7_witness :
    lookupA (code_graph_analyze
        ⟨[⟨[⟨"https://h/app-abc123.js", "application/javascript", 3, "import(\"x\")"⟩,
            ⟨"https://h/app-def456.js", "text/javascript", 7, "from \x27b\x27"⟩]⟩]⟩).components "app"
      = Option.some ⟨"https://h/app-def456.js", 7, ["b"]⟩
    ∧ lookupA (code_graph_analyze
        ⟨[⟨[⟨"https://h/app-abc123.js", "application/javascript", 3, "import(\"x\")"⟩,
            ⟨"https://h/app-def456.js", "text/javascript", 7, "from \x27b\x27"⟩]⟩]⟩).graph "app"
      = Option.some ["b"] := by
  have h := C7_last_write_wins
    ⟨[⟨[⟨"https://h/app-abc123.js", "application/javascript", 3, "import(\"x\")"⟩,
        ⟨"https://h/app-def456.js", "text/javascript", 7, "from \x27b\x27"⟩]⟩]⟩
    "app" ⟨"https://h/app-def456.js", "text/javascript", 7, "from \x27b\x27"⟩ (by decide)
  refine ⟨?_, ?_⟩
  · rw [h.1]
    decide
  · rw [h.2]
    decide

/-- C9: report generation is total over analysis mappings — for every
input, including any with absent analyzer sections, it returns a
report rather than raising; and the report for the input with all four
sections absent is character-for-character the report for an input
whose sections are present but hold only zero counts and empty
listings: missing sections render as zeroes and empty listings. -/
theorem C9_report_tolerates_missing_sections :
    (∀ (ts : String) (a : ReportInput), exceptIsOk (reportGenerate ts a) = true)
    ∧ (∀ ts : String,
        reportGenerate ts ⟨Option.none, Option.none, Option.none, Option.none⟩
          = reportGenerate ts
              ⟨Option.some ⟨Option.some zeroStoreStats, Option.some zeroStoreStats⟩,
               Option.some [], Option.some (), Option.some ⟨Option.none⟩⟩) := by
  constructor
  · intro ts a
    cases h : a.code_graph.bind CodeGraphR.stats <;>
      simp [reportGenerate, h, pySubscr, exceptIsOk]
  · intro ts
    rfl
